import Mathlib

/-!
Shallow embedding of the Tetris engine in `src/Tetris.py`.

Pure game-logic state (grid, current piece, score, level, fall interval) is
modelled as an explicit `Game` structure; each Python method that mutates
`self` becomes a function `Game → Game`.  The pygame rendering, the clock and
the event queue are presentation-only and are not part of the embedding; the
random draws of `Tetromino.__init__` are injected as explicit parameters.
Python `int` becomes `Int` (grid cells, which only ever hold `0..7`, are
`Nat`); Python truthiness of a cell is `≠ 0`; Python floor division `//` by
the positive constant `1000` is `Int` division `/` (`Int.ediv`), which agrees
with floor division for positive divisors.
-/

set_option maxHeartbeats 1000000

def GRID_WIDTH : Nat := 10

def GRID_HEIGHT : Nat := 20

/-- The 7 canonical tetromino shape matrices of `SHAPES` (1 = filled). -/
def SHAPES : List (List (List Nat)) :=
  [[[1, 1, 1, 1]],
   [[1, 1], [1, 1]],
   [[1, 1, 1], [0, 1, 0]],
   [[1, 1, 1], [1, 0, 0]],
   [[1, 1, 1], [0, 0, 1]],
   [[1, 1, 0], [0, 1, 1]],
   [[0, 1, 1], [1, 1, 0]]]

structure Tetromino where
  shape : List (List Nat)
  color : Nat
  x : Int
  y : Int
deriving DecidableEq, Repr

/-- Python `zip(*m)`: rows are truncated to the length of the shortest row;
`zip()` of no rows is empty. -/
def pyZipStar (m : List (List Nat)) : List (List Nat) :=
  match m with
  | [] => []
  | r :: rs =>
    (List.range (rs.foldl (fun a row => min a row.length) r.length)).map
      (fun i => (r :: rs).map (fun row => row.getD i 0))

/-- `Tetromino.rotate`: `[list(row)[::-1] for row in zip(*self.shape)]`,
i.e. transpose (via `zip`) then reverse each resulting row. -/
def rotateShape (s : List (List Nat)) : List (List Nat) :=
  (pyZipStar s).map List.reverse

def Tetromino.rotate (p : Tetromino) : Tetromino :=
  { p with shape := rotateShape p.shape }

structure Game where
  grid : List (List Nat)
  current_piece : Tetromino
  score : Int
  level : Int
  fall_speed : Int
deriving DecidableEq, Repr

/-- `self.grid[r][c]`; in every reachable call site of the source the guards
already established `0 ≤ r < GRID_HEIGHT` and `0 ≤ c < GRID_WIDTH`, so the
defaults never fire on a well-formed grid. -/
def gridCell (g : List (List Nat)) (r c : Int) : Nat :=
  (g.getD r.toNat []).getD c.toNat 0

/-- `Game.check_collision(dx, dy)`: scans the occupied cells of the current
piece; a cell collides when it leaves `[0, GRID_WIDTH)` horizontally or
reaches row `GRID_HEIGHT`, or when its row is `≥ 0` and the grid cell there
is non-empty. -/
def Game.check_collision (st : Game) (dx dy : Int) : Bool :=
  st.current_piece.shape.enum.any fun yrow =>
    yrow.2.enum.any fun xcell =>
      if xcell.2 ≠ 0 then
        let nx : Int := st.current_piece.x + xcell.1 + dx
        let ny : Int := st.current_piece.y + yrow.1 + dy
        if ¬ (0 ≤ nx ∧ nx < (GRID_WIDTH : Int) ∧ ny < (GRID_HEIGHT : Int)) then true
        else if 0 ≤ ny ∧ gridCell st.grid ny nx ≠ 0 then true
        else false
      else false

/-- `self.grid[r][c] = v`.  The source only ever merges pieces whose cells the
collision guard has placed inside the grid, so `r` and `c` are in range at
every reachable call. -/
def setCell (g : List (List Nat)) (r c : Int) (v : Nat) : List (List Nat) :=
  g.set r.toNat ((g.getD r.toNat []).set c.toNat v)

/-- The grid-writing loop of `Game.merge_piece`. -/
def mergeGrid (g : List (List Nat)) (p : Tetromino) : List (List Nat) :=
  p.shape.enum.foldl
    (fun acc yrow =>
      yrow.2.enum.foldl
        (fun acc2 xcell =>
          if xcell.2 ≠ 0 then setCell acc2 (p.y + yrow.1) (p.x + xcell.1) p.color
          else acc2)
        acc)
    g

def emptyRow : List Nat := List.replicate GRID_WIDTH 0

/-- Python `all(row)`: every cell non-zero. -/
def isFullRow (r : List Nat) : Bool := r.all (fun c => c != 0)

/-- The `for i, row in enumerate(self.grid)` loop of `Game.clear_lines`.
Python's list iterator reads the live list: it yields `grid[i]` as long as
`i` is below the CURRENT length.  `del self.grid[i]` followed by
`self.grid.insert(0, empty)` is `emptyRow :: g.eraseIdx i`, which keeps the
length constant, so the loop runs exactly `g.length` times; the fuel argument
is that iteration count. -/
def clearLinesAux : Nat → List (List Nat) → Nat → Nat → List (List Nat) × Nat
  | 0, g, _, acc => (g, acc)
  | fuel + 1, g, i, acc =>
    if h : i < g.length then
      if isFullRow (g.get ⟨i, h⟩) then
        clearLinesAux fuel (emptyRow :: g.eraseIdx i) (i + 1) (acc + 1)
      else
        clearLinesAux fuel g (i + 1) acc
    else (g, acc)

/-- The row-clearing pass of `Game.clear_lines`: resulting grid and the
`lines_cleared` counter. -/
def clearLinesGrid (g : List (List Nat)) : List (List Nat) × Nat :=
  clearLinesAux g.length g 0 0

/-- `Game.clear_lines`: run the clearing pass, then, when at least one line
was cleared, update score, level and fall speed (in that order, the level
read by the score update being the pre-update one). -/
def Game.clear_lines (st : Game) : Game :=
  let res := clearLinesGrid st.grid
  if res.2 ≠ 0 then
    let score2 := st.score + 100 * (res.2 : Int) * st.level
    let level2 := 1 + score2 / 1000
    { st with
      grid := res.1
      score := score2
      level := level2
      fall_speed := max 100 (1000 - level2 * 100) }
  else { st with grid := res.1 }

/-- `Game.__init__` with the random draw of the first piece injected.  The
constructor spawns on the all-empty grid, where no canonical shape collides
at `(4, 0)` (proved below), so `new_piece` inside `__init__` never recurses
into `game_over`. -/
def initGame (shape : List (List Nat)) (color : Nat) : Game :=
  { grid := List.replicate GRID_HEIGHT emptyRow,
    current_piece := ⟨shape, color, 4, 0⟩,
    score := 0, level := 1, fall_speed := 1000 }

/-- `Game.new_piece` with the random draws injected: `(shape, color)` is the
piece drawn now; `(shape2, color2)` is the draw made by the `__init__` that
`game_over` triggers when the fresh piece collides at offset `(0, 0)`. -/
def Game.new_piece (st : Game) (shape : List (List Nat)) (color : Nat)
    (shape2 : List (List Nat)) (color2 : Nat) : Game :=
  let st1 := { st with current_piece := ⟨shape, color, 4, 0⟩ }
  if st1.check_collision 0 0 then initGame shape2 color2 else st1

/-- `Game.merge_piece`: write the piece into the grid, clear lines, spawn. -/
def Game.merge_piece (st : Game) (shape : List (List Nat)) (color : Nat)
    (shape2 : List (List Nat)) (color2 : Nat) : Game :=
  (Game.clear_lines { st with grid := mergeGrid st.grid st.current_piece
                    }).new_piece shape color shape2 color2

/-- `K_LEFT` branch of the event loop. -/
def moveLeft (st : Game) : Game :=
  if st.check_collision (-1) 0 then st
  else { st with current_piece := { st.current_piece with x := st.current_piece.x - 1 } }

/-- `K_RIGHT` branch of the event loop. -/
def moveRight (st : Game) : Game :=
  if st.check_collision 1 0 then st
  else { st with current_piece := { st.current_piece with x := st.current_piece.x + 1 } }

/-- `K_DOWN` branch of the event loop (soft drop). -/
def softDrop (st : Game) : Game :=
  if st.check_collision 0 1 then st
  else { st with current_piece := { st.current_piece with y := st.current_piece.y + 1 } }

/-- `K_UP` branch of the event loop: rotate, and when the rotated piece
collides at offset `(0, 0)` rotate three further times. -/
def rotateIntent (st : Game) : Game :=
  let st1 := { st with current_piece := st.current_piece.rotate }
  if st1.check_collision 0 0 then
    { st1 with current_piece := st1.current_piece.rotate.rotate.rotate }
  else st1

/-- `check_collision` as a function of the grid and a piece (the method only
reads those two components of the state). -/
def collides (g : List (List Nat)) (p : Tetromino) (dx dy : Int) : Bool :=
  Game.check_collision ⟨g, p, 0, 1, 1000⟩ dx dy

/-- The `while not self.check_collision(0, 1): self.current_piece.y += 1`
loop of the `K_SPACE` branch, with explicit fuel (the Python loop is
unbounded; fuel `GRID_HEIGHT` is proved sufficient for every piece with an
occupied cell and non-negative row, which is every piece the game creates). -/
def dropLoop (g : List (List Nat)) (fuel : Nat) (p : Tetromino) : Tetromino :=
  match fuel with
  | 0 => p
  | fuel + 1 =>
    if collides g p 0 1 then p
    else dropLoop g fuel { p with y := p.y + 1 }

/-- `K_SPACE` branch of the event loop: drop to rest, then merge. -/
def hardDrop (st : Game) (shape : List (List Nat)) (color : Nat)
    (shape2 : List (List Nat)) (color2 : Nat) : Game :=
  ({ st with current_piece := dropLoop st.grid GRID_HEIGHT st.current_piece
   }).merge_piece shape color shape2 color2

/-- The auto-fall step of `Game.run` that fires when the fall interval has
elapsed: descend one row if possible, otherwise merge. -/
def autoFall (st : Game) (shape : List (List Nat)) (color : Nat)
    (shape2 : List (List Nat)) (color2 : Nat) : Game :=
  if st.check_collision 0 1 then st.merge_piece shape color shape2 color2
  else { st with current_piece := { st.current_piece with y := st.current_piece.y + 1 } }

/-- Cell `(i, j)` of a shape matrix, `0` (unoccupied) out of range. -/
def cellAt (s : List (List Nat)) (i j : Nat) : Nat :=
  (s.getD i []).getD j 0

/-- The collision condition of the spec for one occupied cell `(i, j)` of the
piece's shape at hypothetical offset `(dx, dy)`: a column outside
`[0, GRID_WIDTH)`, a row `≥ GRID_HEIGHT`, or a row `≥ 0` whose board cell is
non-empty. -/
def cellUnsafe (g : List (List Nat)) (p : Tetromino) (dx dy : Int) (i j : Nat) : Prop :=
  p.x + j + dx < 0 ∨ (GRID_WIDTH : Int) ≤ p.x + j + dx ∨
    (GRID_HEIGHT : Int) ≤ p.y + i + dy ∨
    (0 ≤ p.y + i + dy ∧ gridCell g (p.y + i + dy) (p.x + j + dx) ≠ 0)

instance (g p dx dy i j) : Decidable (cellUnsafe g p dx dy i j) := by
  unfold cellUnsafe; infer_instance

lemma check_collision_eq_collides (st : Game) (dx dy : Int) :
    st.check_collision dx dy = collides st.grid st.current_piece dx dy := rfl

lemma cellAt_of_getElem {s : List (List Nat)} {i : Nat} {row : List Nat}
    (h : s[i]? = some row) (j : Nat) : cellAt s i j = row.getD j 0 := by
  unfold cellAt
  rw [List.getD_eq_getElem?_getD s i [], h]
  rfl

/-- `collides` is true exactly when some occupied cell of the shape violates
the spec's per-cell safety condition. -/
lemma collides_iff (g : List (List Nat)) (p : Tetromino) (dx dy : Int) :
    collides g p dx dy = true ↔
      ∃ i j : Nat, cellAt p.shape i j ≠ 0 ∧ cellUnsafe g p dx dy i j := by
  unfold collides Game.check_collision
  simp only [List.any_eq_true]
  constructor
  · rintro ⟨⟨i, row⟩, hmem, ⟨j, cell⟩, hmemc, hcell⟩
    rw [List.mk_mem_enum_iff_getElem?] at hmem hmemc
    refine ⟨i, j, ?_, ?_⟩
    · rw [cellAt_of_getElem hmem j, List.getD_eq_getElem?_getD, hmemc]
      simp only [Option.getD_some]
      by_cases hc : cell ≠ 0
      · exact hc
      · simp only [hc, if_neg] at hcell
        simp at hcell
    · by_cases hc : cell ≠ 0
      · simp only [if_pos hc] at hcell
        unfold cellUnsafe
        split at hcell
        · rename_i hcond
          push_neg at hcond
          rcases lt_or_le (p.x + (j : Int) + dx) 0 with h0 | h0
          · exact Or.inl h0
          · rcases lt_or_le (p.x + (j : Int) + dx) (GRID_WIDTH : Int) with h1 | h1
            · exact Or.inr (Or.inr (Or.inl (hcond h0 h1)))
            · exact Or.inr (Or.inl h1)
        · split at hcell
          · rename_i hocc
            exact Or.inr (Or.inr (Or.inr hocc))
          · exact absurd hcell (by simp)
      · simp only [if_neg hc] at hcell
        exact absurd hcell (by simp)
  · rintro ⟨i, j, hocc, hunsafe⟩
    have hi : i < p.shape.length := by
      by_contra hge
      have : p.shape[i]? = none := List.getElem?_eq_none (by omega)
      unfold cellAt at hocc
      rw [List.getD_eq_getElem?_getD p.shape i [], this] at hocc
      simp at hocc
    have hrowval : p.shape[i]? = some p.shape[i] := List.getElem?_eq_getElem hi
    have hj : j < p.shape[i].length := by
      by_contra hge
      have : p.shape[i][j]? = none := List.getElem?_eq_none (by omega)
      rw [cellAt_of_getElem hrowval j, List.getD_eq_getElem?_getD, this] at hocc
      simp at hocc
    refine ⟨(i, p.shape[i]), List.mk_mem_enum_iff_getElem?.mpr hrowval,
      (j, p.shape[i][j]), ?_, ?_⟩
    · exact List.mk_mem_enum_iff_getElem?.mpr (List.getElem?_eq_getElem hj)
    · have hcellval : cellAt p.shape i j = p.shape[i][j] := by
        rw [cellAt_of_getElem hrowval j, List.getD_eq_getElem?_getD,
          List.getElem?_eq_getElem hj]
        rfl
      rw [hcellval] at hocc
      simp only [if_pos hocc]
      unfold cellUnsafe at hunsafe
      by_cases hb : ¬ (0 ≤ p.x + (j : Int) + dx ∧ p.x + (j : Int) + dx < (GRID_WIDTH : Int) ∧
          p.y + (i : Int) + dy < (GRID_HEIGHT : Int))
      · simp [hb]
      · rw [if_neg (by simpa using hb)]
        push_neg at hb
        have hoccb : 0 ≤ p.y + (i : Int) + dy ∧
            gridCell g (p.y + (i : Int) + dy) (p.x + (j : Int) + dx) ≠ 0 := by
          rcases hunsafe with h | h | h | h
          · omega
          · omega
          · exact absurd hb.2.2 (not_lt.mpr h)
          · exact h
        simp [hoccb]

lemma get_append_cons_length (pre s : List (List Nat)) (r : List Nat)
    (h : pre.length < (pre ++ r :: s).length) :
    (pre ++ r :: s).get ⟨pre.length, h⟩ = r := by
  rw [List.get_eq_getElem, List.getElem_append_right (Nat.le_refl _)]
  simp

lemma eraseIdx_append_cons_length (pre s : List (List Nat)) (r : List Nat) :
    (pre ++ r :: s).eraseIdx pre.length = pre ++ s := by
  induction pre with
  | nil => simp [List.eraseIdx]
  | cons a t ih => simp [List.eraseIdx, ih]

/-- Invariant of the `clear_lines` loop: processing the suffix `suf` of the
live grid `pre ++ suf` starting at index `pre.length` clears exactly the full
rows of `suf`, prepends one empty row per cleared row, and keeps the other
rows of `suf` in order after `pre`. -/
lemma clearLinesAux_spec (suf : List (List Nat)) :
    ∀ (pre : List (List Nat)) (acc : Nat),
      clearLinesAux suf.length (pre ++ suf) pre.length acc =
        (List.replicate (suf.countP isFullRow) emptyRow ++ pre ++
           suf.filter (fun r => ! isFullRow r),
         acc + suf.countP isFullRow) := by
  induction suf with
  | nil => intro pre acc; simp [clearLinesAux]
  | cons r s ih =>
    intro pre acc
    have hlt : pre.length < (pre ++ r :: s).length := by
      simp
    rw [show (r :: s).length = s.length + 1 from rfl]
    rw [clearLinesAux]
    rw [dif_pos hlt, get_append_cons_length pre s r hlt]
    by_cases hfull : isFullRow r = true
    · rw [if_pos hfull, eraseIdx_append_cons_length]
      have hcons : emptyRow :: (pre ++ s) = (emptyRow :: pre) ++ s := rfl
      have hlen : pre.length + 1 = (emptyRow :: pre).length := rfl
      rw [hcons, hlen, ih (emptyRow :: pre) (acc + 1)]
      rw [List.countP_cons_of_pos _ _ hfull, List.filter_cons_of_neg (by simp [hfull])]
      rw [Prod.mk.injEq]
      refine ⟨?_, by omega⟩
      rw [List.replicate_succ' (s.countP isFullRow) emptyRow]
      simp
    · rw [if_neg hfull]
      have hcons : pre ++ r :: s = (pre ++ [r]) ++ s := by simp
      have hlen : pre.length + 1 = (pre ++ [r]).length := by simp
      rw [hcons, hlen, ih (pre ++ [r]) acc]
      rw [List.countP_cons_of_neg _ _ (by simp [hfull]),
        List.filter_cons_of_pos (by simp [hfull])]
      simp

/-- The clearing pass removes exactly the originally-full rows, inserts that
many empty rows at the top, keeps the remaining rows in order, and counts the
removed rows. -/
lemma clearLinesGrid_spec (g : List (List Nat)) :
    clearLinesGrid g =
      (List.replicate (g.countP isFullRow) emptyRow ++
         g.filter (fun r => ! isFullRow r),
       g.countP isFullRow) := by
  have h := clearLinesAux_spec g [] 0
  simpa [clearLinesGrid] using h

/-- Every shape matrix a game piece can ever hold: the canonical shapes and
their rotations (`Tetromino.__init__` draws from `SHAPES`; `rotate` is the
only operation that changes a shape). -/
def shapeOrbit : List (List (List Nat)) :=
  SHAPES.flatMap (fun s =>
    [s, rotateShape s, rotateShape (rotateShape s),
     rotateShape (rotateShape (rotateShape s))])

lemma shapeOrbit_rotate_rotate_rotate_rotate :
    ∀ s ∈ shapeOrbit,
      rotateShape (rotateShape (rotateShape (rotateShape s))) = s := by decide

lemma shapeOrbit_closed : ∀ s ∈ shapeOrbit, rotateShape s ∈ shapeOrbit := by decide

/-- A shape with at least one occupied cell. -/
def hasBlock (s : List (List Nat)) : Bool :=
  s.any (fun r => r.any (fun c => c != 0))

lemma hasBlock_iff (s : List (List Nat)) :
    hasBlock s = true ↔ ∃ i j : Nat, cellAt s i j ≠ 0 := by
  unfold hasBlock
  simp only [List.any_eq_true]
  constructor
  · rintro ⟨row, hrow, cell, hcell, hc⟩
    obtain ⟨i, hi⟩ := List.mem_iff_getElem?.mp hrow
    obtain ⟨j, hj⟩ := List.mem_iff_getElem?.mp hcell
    refine ⟨i, j, ?_⟩
    rw [cellAt_of_getElem hi j, List.getD_eq_getElem?_getD, hj]
    simpa using hc
  · rintro ⟨i, j, hocc⟩
    have hi : i < s.length := by
      by_contra hge
      have : s[i]? = none := List.getElem?_eq_none (by omega)
      unfold cellAt at hocc
      rw [List.getD_eq_getElem?_getD s i [], this] at hocc
      simp at hocc
    have hrowval : s[i]? = some s[i] := List.getElem?_eq_getElem hi
    have hj : j < s[i].length := by
      by_contra hge
      have : s[i][j]? = none := List.getElem?_eq_none (by omega)
      rw [cellAt_of_getElem hrowval j, List.getD_eq_getElem?_getD, this] at hocc
      simp at hocc
    refine ⟨s[i], List.getElem_mem hi, s[i][j], List.getElem_mem hj, ?_⟩
    rw [cellAt_of_getElem hrowval j, List.getD_eq_getElem?_getD,
      List.getElem?_eq_getElem hj] at hocc
    simpa using hocc

/-- Claim C1: `check_collision(dx, dy)` is true exactly when some occupied
cell of the piece's shape, placed at `(piece.x + dx, piece.y + dy)`, has a
column outside `[0, GRID_WIDTH)`, a row `≥ GRID_HEIGHT`, or a row `≥ 0`
whose board cell is non-empty (`cellUnsafe` is precisely that disjunction:
cells with negative resulting row are exempt from the occupancy conjunct but
not from the horizontal-bounds disjuncts).  The embedding of the method is a
pure function from the state, so the call mutates neither grid nor piece by
construction. -/
theorem check_collision_characterization (st : Game) (dx dy : Int) :
    st.check_collision dx dy = true ↔
      ∃ i j : Nat, cellAt st.current_piece.shape i j ≠ 0 ∧
        cellUnsafe st.grid st.current_piece dx dy i j := by
  rw [check_collision_eq_collides]
  exact collides_iff st.grid st.current_piece dx dy

/-- Claim C2: a single `clear_lines` pass over a `GRID_HEIGHT`-row grid
removes exactly the rows that were fully non-empty at the start of the call,
inserts one all-empty row at the top per removed row, and preserves the
relative order of the remaining rows; the loop-invariant lemma behind this
(`clearLinesAux_spec`) shows each original row index is evaluated exactly
once and shifted rows are never re-checked. -/
theorem clear_lines_removes_exactly_full_rows (g : List (List Nat))
    (hg : g.length = GRID_HEIGHT) :
    clearLinesGrid g =
      (List.replicate (g.countP isFullRow) emptyRow ++
         g.filter (fun r => ! isFullRow r),
       g.countP isFullRow) :=
  clearLinesGrid_spec g

/-- Witness for C2 on a concrete 20-row grid with two full rows. -/
theorem clear_lines_removes_exactly_full_rows_w :
    clearLinesGrid
        (List.replicate 9 emptyRow ++ [List.replicate 10 3] ++
          List.replicate 9 emptyRow ++ [List.replicate 10 5]) =
      (List.replicate
          ((List.replicate 9 emptyRow ++ [List.replicate 10 3] ++
             List.replicate 9 emptyRow ++ [List.replicate 10 5]).countP isFullRow)
          emptyRow ++
        (List.replicate 9 emptyRow ++ [List.replicate 10 3] ++
          List.replicate 9 emptyRow ++ [List.replicate 10 5]).filter
          (fun r => ! isFullRow r),
       (List.replicate 9 emptyRow ++ [List.replicate 10 3] ++
         List.replicate 9 emptyRow ++ [List.replicate 10 5]).countP isFullRow) :=
  clear_lines_removes_exactly_full_rows _ (by decide)

/-- The value `Game.clear_lines` hands back to its caller: the source method
has no `return` statement, so in Python every call evaluates to `None`,
never to an integer.  (`merge_piece`, the only caller, ignores it.) -/
def clear_lines_return_value (_st : Game) : Option Int := none

/-- Claim C3 (code bug): the spec requires `clear_lines` to return the
number of removed rows as an integer, but the source method has no `return`
statement — every call returns `None` (`clear_lines_return_value`), so no
integer ever reaches the caller.  The internal `lines_cleared` counter of
the pass does hold exactly the claimed number (the count of originally-full
rows); on the all-empty board that counter is 0 and `clear_lines` leaves
the whole state, in particular every board cell, unchanged. -/
theorem clear_lines_count_and_empty_board (g : List (List Nat)) (st : Game)
    (h : st.grid = List.replicate GRID_HEIGHT emptyRow) :
    clear_lines_return_value st = none ∧
      (∀ n : Int, clear_lines_return_value st ≠ some n) ∧
      (clearLinesGrid g).2 = g.countP isFullRow ∧
      (clearLinesGrid st.grid).2 = 0 ∧ Game.clear_lines st = st := by
  have hempty : clearLinesGrid (List.replicate GRID_HEIGHT emptyRow) =
      (List.replicate GRID_HEIGHT emptyRow, 0) := by decide
  refine ⟨rfl, fun n => by simp [clear_lines_return_value],
    by rw [clearLinesGrid_spec], by rw [h, hempty], ?_⟩
  obtain ⟨g0, p0, s0, l0, f0⟩ := st
  simp only at h
  subst h
  simp [Game.clear_lines, hempty]

/-- Witness for C3 at a concrete all-empty-board state. -/
theorem clear_lines_count_and_empty_board_w :
    clear_lines_return_value
        ⟨List.replicate GRID_HEIGHT emptyRow, ⟨[[1]], 1, 4, 0⟩, 0, 1, 1000⟩ = none ∧
      (∀ n : Int, clear_lines_return_value
        ⟨List.replicate GRID_HEIGHT emptyRow, ⟨[[1]], 1, 4, 0⟩, 0, 1, 1000⟩ ≠ some n) ∧
      (clearLinesGrid [[1, 1], [0, 1]]).2 = [[1, 1], [0, 1]].countP isFullRow ∧
      (clearLinesGrid (Game.grid
          ⟨List.replicate GRID_HEIGHT emptyRow, ⟨[[1]], 1, 4, 0⟩, 0, 1, 1000⟩)).2 = 0 ∧
      Game.clear_lines
          ⟨List.replicate GRID_HEIGHT emptyRow, ⟨[[1]], 1, 4, 0⟩, 0, 1, 1000⟩ =
        ⟨List.replicate GRID_HEIGHT emptyRow, ⟨[[1]], 1, 4, 0⟩, 0, 1, 1000⟩ :=
  clear_lines_count_and_empty_board [[1, 1], [0, 1]] _ rfl

/-- Claim C4: for each of the 7 canonical tetromino shapes, four successive
`rotate` applications restore a shape matrix element-equal to the original,
including the non-square shapes whose bounding box changes under rotation. -/
theorem rotate_four_times_id (p : Tetromino) (h : p.shape ∈ SHAPES) :
    p.rotate.rotate.rotate.rotate.shape = p.shape := by
  show rotateShape (rotateShape (rotateShape (rotateShape p.shape))) = p.shape
  simp only [SHAPES, List.mem_cons, List.not_mem_nil, or_false] at h
  rcases h with h | h | h | h | h | h | h <;> rw [h] <;> decide

/-- Witness for C4 at the I piece. -/
theorem rotate_four_times_id_w :
    (Tetromino.rotate (Tetromino.rotate (Tetromino.rotate (Tetromino.rotate
        ⟨[[1, 1, 1, 1]], 1, 4, 0⟩)))).shape = ([[1, 1, 1, 1]] : List (List Nat)) :=
  rotate_four_times_id ⟨[[1, 1, 1, 1]], 1, 4, 0⟩ (by decide)

/-- A 20-row board whose last two rows are full (colors 1 and 2). -/
def demoBoardTwoFull : List (List Nat) :=
  List.replicate 18 emptyRow ++ [List.replicate 10 1, List.replicate 10 2]

/-- A 20-row board whose last row is full (color 3). -/
def demoBoardOneFull : List (List Nat) :=
  List.replicate 19 emptyRow ++ [List.replicate 10 3]

/-- Claim C5: when the clearing pass removed `n ≥ 1` rows, `clear_lines`
performs the three scoring updates as one unit — score increases by
`100 * n * level` with the pre-update level, then the level becomes
`1 + score / 1000` from the new score, then the fall interval becomes
`max 100 (1000 - 100 * level)` from the new level — and when `n = 0` it
changes none of score, level and fall interval.  At `score = 0, level = 1`
clearing 2 lines gives `score = 200, level = 1`, interval `900`; at
`score = 950, level = 1` clearing 1 line gives `score = 1050, level = 2`,
interval `800`. -/
theorem clear_lines_scoring (st : Game) :
    ((clearLinesGrid st.grid).2 ≠ 0 →
       (Game.clear_lines st).score =
           st.score + 100 * ((clearLinesGrid st.grid).2 : Int) * st.level ∧
         (Game.clear_lines st).level = 1 + (Game.clear_lines st).score / 1000 ∧
         (Game.clear_lines st).fall_speed =
           max 100 (1000 - (Game.clear_lines st).level * 100)) ∧
      ((clearLinesGrid st.grid).2 = 0 →
       (Game.clear_lines st).score = st.score ∧
         (Game.clear_lines st).level = st.level ∧
         (Game.clear_lines st).fall_speed = st.fall_speed) ∧
      (Game.clear_lines ⟨demoBoardTwoFull, ⟨[[1]], 1, 4, 0⟩, 0, 1, 1000⟩).score = 200 ∧
      (Game.clear_lines ⟨demoBoardTwoFull, ⟨[[1]], 1, 4, 0⟩, 0, 1, 1000⟩).level = 1 ∧
      (Game.clear_lines ⟨demoBoardTwoFull, ⟨[[1]], 1, 4, 0⟩, 0, 1, 1000⟩).fall_speed = 900 ∧
      (Game.clear_lines ⟨demoBoardOneFull, ⟨[[1]], 1, 4, 0⟩, 950, 1, 1000⟩).score = 1050 ∧
      (Game.clear_lines ⟨demoBoardOneFull, ⟨[[1]], 1, 4, 0⟩, 950, 1, 1000⟩).level = 2 ∧
      (Game.clear_lines ⟨demoBoardOneFull, ⟨[[1]], 1, 4, 0⟩, 950, 1, 1000⟩).fall_speed = 800 := by
  refine ⟨?_, ?_, by decide, by decide, by decide, by decide, by decide, by decide⟩
  · intro hn
    simp [Game.clear_lines, if_pos hn]
  · intro hn
    simp [Game.clear_lines, hn]

/-- Witness for C5: the non-zero branch applied at the two-full-rows state. -/
theorem clear_lines_scoring_w :
    (Game.clear_lines ⟨demoBoardTwoFull, ⟨[[1]], 1, 4, 0⟩, 0, 1, 1000⟩).score =
        (0 : Int) + 100 *
          ((clearLinesGrid (Game.grid ⟨demoBoardTwoFull, ⟨[[1]], 1, 4, 0⟩, 0, 1, 1000⟩)).2 : Int)
          * 1 ∧
      (Game.clear_lines ⟨demoBoardTwoFull, ⟨[[1]], 1, 4, 0⟩, 0, 1, 1000⟩).level =
        1 + (Game.clear_lines ⟨demoBoardTwoFull, ⟨[[1]], 1, 4, 0⟩, 0, 1, 1000⟩).score / 1000 ∧
      (Game.clear_lines ⟨demoBoardTwoFull, ⟨[[1]], 1, 4, 0⟩, 0, 1, 1000⟩).fall_speed =
        max 100 (1000 - (Game.clear_lines ⟨demoBoardTwoFull, ⟨[[1]], 1, 4, 0⟩, 0, 1, 1000⟩).level * 100) :=
  (clear_lines_scoring ⟨demoBoardTwoFull, ⟨[[1]], 1, 4, 0⟩, 0, 1, 1000⟩).1 (by decide)

/-- Claim C6: the rotate intent first replaces the shape by its clockwise
rotation; when that collides at offset `(0, 0)` it rotates three further
times, so afterwards either the piece holds the rotated shape and does not
collide at `(0, 0)`, or its shape is element-equal to the shape before the
intent; the piece position is unchanged in both cases.  The hypothesis
restricts the shape to the rotation orbit of the canonical shapes — the only
shapes a game piece ever holds. -/
theorem rotate_intent_spec (st : Game) (h : st.current_piece.shape ∈ shapeOrbit) :
    (rotateIntent st).current_piece.x = st.current_piece.x ∧
      (rotateIntent st).current_piece.y = st.current_piece.y ∧
      (rotateIntent st).grid = st.grid ∧
      (((rotateIntent st).current_piece.shape = rotateShape st.current_piece.shape ∧
          (rotateIntent st).check_collision 0 0 = false) ∨
        (rotateIntent st).current_piece.shape = st.current_piece.shape) := by
  unfold rotateIntent
  by_cases hc :
      Game.check_collision { st with current_piece := st.current_piece.rotate } 0 0 = true
  · rw [if_pos hc]
    refine ⟨rfl, rfl, rfl, Or.inr ?_⟩
    show rotateShape (rotateShape (rotateShape (rotateShape st.current_piece.shape))) =
      st.current_piece.shape
    exact shapeOrbit_rotate_rotate_rotate_rotate st.current_piece.shape h
  · rw [if_neg hc]
    exact ⟨rfl, rfl, rfl, Or.inl ⟨rfl, by simpa using hc⟩⟩

/-- Witness for C6 at a concrete state (T piece against the left wall, where
the rotation succeeds). -/
theorem rotate_intent_spec_w :
    (rotateIntent ⟨List.replicate 20 emptyRow, ⟨[[1, 1, 1], [0, 1, 0]], 1, 0, 0⟩, 0, 1, 1000⟩).current_piece.x =
        (Game.mk (List.replicate 20 emptyRow) ⟨[[1, 1, 1], [0, 1, 0]], 1, 0, 0⟩ 0 1 1000).current_piece.x ∧
      (rotateIntent ⟨List.replicate 20 emptyRow, ⟨[[1, 1, 1], [0, 1, 0]], 1, 0, 0⟩, 0, 1, 1000⟩).current_piece.y =
        (Game.mk (List.replicate 20 emptyRow) ⟨[[1, 1, 1], [0, 1, 0]], 1, 0, 0⟩ 0 1 1000).current_piece.y ∧
      (rotateIntent ⟨List.replicate 20 emptyRow, ⟨[[1, 1, 1], [0, 1, 0]], 1, 0, 0⟩, 0, 1, 1000⟩).grid =
        (Game.mk (List.replicate 20 emptyRow) ⟨[[1, 1, 1], [0, 1, 0]], 1, 0, 0⟩ 0 1 1000).grid ∧
      (((rotateIntent ⟨List.replicate 20 emptyRow, ⟨[[1, 1, 1], [0, 1, 0]], 1, 0, 0⟩, 0, 1, 1000⟩).current_piece.shape =
            rotateShape [[1, 1, 1], [0, 1, 0]] ∧
          (rotateIntent ⟨List.replicate 20 emptyRow, ⟨[[1, 1, 1], [0, 1, 0]], 1, 0, 0⟩, 0, 1, 1000⟩).check_collision 0 0 = false) ∨
        (rotateIntent ⟨List.replicate 20 emptyRow, ⟨[[1, 1, 1], [0, 1, 0]], 1, 0, 0⟩, 0, 1, 1000⟩).current_piece.shape =
          [[1, 1, 1], [0, 1, 0]]) :=
  rotate_intent_spec ⟨List.replicate 20 emptyRow, ⟨[[1, 1, 1], [0, 1, 0]], 1, 0, 0⟩, 0, 1, 1000⟩
    (by decide)

lemma dropLoop_zero (g : List (List Nat)) (p : Tetromino) : dropLoop g 0 p = p := rfl

lemma dropLoop_succ (g : List (List Nat)) (p : Tetromino) (n : Nat) :
    dropLoop g (n + 1) p =
      if collides g p 0 1 then p else dropLoop g n { p with y := p.y + 1 } := rfl

lemma cellUnsafe_shift (g : List (List Nat)) (p : Tetromino) (dx dy : Int) (i j : Nat) :
    cellUnsafe g ⟨p.shape, p.color, p.x + dx, p.y + dy⟩ 0 0 i j ↔
      cellUnsafe g p dx dy i j := by
  unfold cellUnsafe
  simp only [add_zero]
  rw [show p.x + dx + (j : Int) = p.x + (j : Int) + dx from by ring,
    show p.y + dy + (i : Int) = p.y + (i : Int) + dy from by ring]

/-- Checking collision at offset `(dx, dy)` is checking collision at offset
`(0, 0)` of the piece already moved by `(dx, dy)`. -/
lemma collides_shift (g : List (List Nat)) (p : Tetromino) (dx dy : Int) :
    collides g ⟨p.shape, p.color, p.x + dx, p.y + dy⟩ 0 0 = collides g p dx dy := by
  rw [Bool.eq_iff_iff, collides_iff, collides_iff]
  constructor
  · rintro ⟨i, j, hocc, hx⟩
    exact ⟨i, j, hocc, (cellUnsafe_shift g p dx dy i j).mp hx⟩
  · rintro ⟨i, j, hocc, hx⟩
    exact ⟨i, j, hocc, (cellUnsafe_shift g p dx dy i j).mpr hx⟩

lemma collides_down (g : List (List Nat)) (p : Tetromino) :
    collides g { p with y := p.y + 1 } 0 0 = collides g p 0 1 := by
  have h : ({ p with y := p.y + 1 } : Tetromino) = ⟨p.shape, p.color, p.x + 0, p.y + 1⟩ := by
    simp
  rw [h, collides_shift g p 0 1]

lemma dropLoop_fields (g : List (List Nat)) :
    ∀ (fuel : Nat) (p : Tetromino),
      (dropLoop g fuel p).shape = p.shape ∧ (dropLoop g fuel p).color = p.color ∧
        (dropLoop g fuel p).x = p.x ∧ p.y ≤ (dropLoop g fuel p).y := by
  intro fuel
  induction fuel with
  | zero => intro p; exact ⟨rfl, rfl, rfl, le_refl _⟩
  | succ n ih =>
    intro p
    rw [dropLoop]
    by_cases hc : collides g p 0 1 = true
    · rw [if_pos hc]; exact ⟨rfl, rfl, rfl, le_refl _⟩
    · rw [if_neg hc]
      obtain ⟨h1, h2, h3, h4⟩ := ih { p with y := p.y + 1 }
      have h4' : p.y + 1 ≤ (dropLoop g n { p with y := p.y + 1 }).y := h4
      exact ⟨h1, h2, h3, by omega⟩

/-- Every row the drop loop steps into is collision-free: all intermediate
positions strictly between the start row and the resting row (inclusive) pass
the `(0, 0)` collision check. -/
lemma dropLoop_intermediate (g : List (List Nat)) :
    ∀ (fuel : Nat) (p : Tetromino) (k : Int), p.y < k → k ≤ (dropLoop g fuel p).y →
      collides g { p with y := k } 0 0 = false := by
  intro fuel
  induction fuel with
  | zero =>
    intro p k h1 h2
    have h2' : k ≤ p.y := h2
    omega
  | succ n ih =>
    intro p k h1 h2
    rw [dropLoop] at h2
    by_cases hc : collides g p 0 1 = true
    · rw [if_pos hc] at h2; omega
    · rw [if_neg hc] at h2
      by_cases hk : k = p.y + 1
      · subst hk
        rw [collides_down]
        simpa using hc
      · have hlt : ({ p with y := p.y + 1 } : Tetromino).y < k := by
          show p.y + 1 < k
          omega
        exact ih { p with y := p.y + 1 } k hlt h2

/-- Once the piece is low enough (`y ≥ GRID_HEIGHT - 1`), any occupied cell
has resulting row `≥ GRID_HEIGHT` at offset `(0, 1)`, so the descent guard
reports a collision. -/
lemma collides_down_of_low (g : List (List Nat)) (p : Tetromino)
    (hocc : hasBlock p.shape = true) (hy : (GRID_HEIGHT : Int) ≤ p.y + 1) :
    collides g p 0 1 = true := by
  obtain ⟨i, j, hij⟩ := (hasBlock_iff p.shape).mp hocc
  refine (collides_iff g p 0 1).mpr ⟨i, j, hij, Or.inr (Or.inr (Or.inl ?_))⟩
  have : (0 : Int) ≤ (i : Int) := Int.natCast_nonneg i
  omega

/-- Termination of the descent loop: with any fuel `≥ GRID_HEIGHT - y - 1`
remaining the loop reaches a position whose descent guard is true. -/
lemma dropLoop_reaches_collision (g : List (List Nat)) :
    ∀ (fuel : Nat) (p : Tetromino), hasBlock p.shape = true →
      (GRID_HEIGHT : Int) ≤ p.y + (fuel : Int) + 1 →
      collides g (dropLoop g fuel p) 0 1 = true := by
  intro fuel
  induction fuel with
  | zero =>
    intro p hocc hb
    rw [dropLoop]
    exact collides_down_of_low g p hocc (by omega)
  | succ n ih =>
    intro p hocc hb
    rw [dropLoop]
    by_cases hc : collides g p 0 1 = true
    · rwa [if_pos hc]
    · rw [if_neg hc]
      refine ih { p with y := p.y + 1 } hocc ?_
      show (GRID_HEIGHT : Int) ≤ (p.y + 1) + (n : Int) + 1
      push_cast at hb ⊢
      omega

/-- Once the guard is true the loop is stationary: extra fuel changes
nothing, so the fueled model agrees with the unbounded Python loop. -/
lemma dropLoop_stable (g : List (List Nat)) :
    ∀ (fuel : Nat) (p : Tetromino), collides g (dropLoop g fuel p) 0 1 = true →
      ∀ m : Nat, dropLoop g (fuel + m) p = dropLoop g fuel p := by
  intro fuel
  induction fuel with
  | zero =>
    intro p hc m
    cases m with
    | zero => rfl
    | succ k =>
      have hc' : collides g p 0 1 = true := hc
      rw [Nat.zero_add, dropLoop_succ, if_pos hc', dropLoop_zero]
  | succ n ih =>
    intro p hc m
    rw [dropLoop_succ] at hc
    by_cases hg : collides g p 0 1 = true
    · rw [if_pos hg] at hc
      rw [show n + 1 + m = (n + m) + 1 from by omega]
      rw [dropLoop_succ, if_pos hg, dropLoop_succ, if_pos hg]
    · rw [if_neg hg] at hc
      rw [show n + 1 + m = (n + m) + 1 from by omega]
      rw [dropLoop_succ, if_neg hg, dropLoop_succ, if_neg hg]
      exact ih { p with y := p.y + 1 } hc m

/-- A shape without occupied cells never collides, at any offset. -/
lemma collides_empty_shape (g : List (List Nat)) (p : Tetromino)
    (hocc : hasBlock p.shape = false) (dx dy : Int) :
    collides g p dx dy = false := by
  rw [Bool.eq_false_iff]
  intro hcoll
  obtain ⟨i, j, hij, _⟩ := (collides_iff g p dx dy).mp hcoll
  have : hasBlock p.shape = true := (hasBlock_iff p.shape).mpr ⟨i, j, hij⟩
  rw [this] at hocc
  exact Bool.noConfusion hocc

/-- With no occupied cell the guard never fires and the loop consumes all
its fuel descending: the unbounded source loop would never terminate. -/
lemma dropLoop_empty_shape (g : List (List Nat)) :
    ∀ (fuel : Nat) (p : Tetromino), hasBlock p.shape = false →
      dropLoop g fuel p = { p with y := p.y + (fuel : Int) } := by
  intro fuel
  induction fuel with
  | zero =>
    intro p hocc
    have h0 : p.y + ((0 : Nat) : Int) = p.y := by norm_num
    rw [dropLoop, h0]
  | succ n ih =>
    intro p hocc
    rw [dropLoop, if_neg (by simp [collides_empty_shape g p hocc])]
    rw [ih { p with y := p.y + 1 } hocc]
    simp only [Tetromino.mk.injEq]
    refine ⟨trivial, trivial, trivial, ?_⟩
    push_cast
    ring

/-- Claim C7: the hard-drop of the source IS the collision-guarded
single-step descent loop followed by a lock, and its resting row is maximal:
the loop preserves shape and column, never decreases the row, every row it
steps into passes the `(0, 0)` collision check, the row below the resting
row collides (so no further unit step is possible), fuel `GRID_HEIGHT`
already reaches the fixed point of the unbounded source loop, and `hardDrop`
is by definition that loop followed immediately by `merge_piece` (the
lock). -/
theorem hard_drop_resting_row (st : Game)
    (hocc : hasBlock st.current_piece.shape = true) (hy : 0 ≤ st.current_piece.y) :
    (dropLoop st.grid GRID_HEIGHT st.current_piece).x = st.current_piece.x ∧
      (dropLoop st.grid GRID_HEIGHT st.current_piece).shape = st.current_piece.shape ∧
      st.current_piece.y ≤ (dropLoop st.grid GRID_HEIGHT st.current_piece).y ∧
      collides st.grid (dropLoop st.grid GRID_HEIGHT st.current_piece) 0 1 = true ∧
      (∀ k : Int, st.current_piece.y < k →
        k ≤ (dropLoop st.grid GRID_HEIGHT st.current_piece).y →
        collides st.grid { st.current_piece with y := k } 0 0 = false) ∧
      (∀ m : Nat, dropLoop st.grid (GRID_HEIGHT + m) st.current_piece =
        dropLoop st.grid GRID_HEIGHT st.current_piece) ∧
      (∀ shape color shape2 color2,
        hardDrop st shape color shape2 color2 =
          Game.merge_piece
            { st with current_piece := dropLoop st.grid GRID_HEIGHT st.current_piece }
            shape color shape2 color2) := by
  obtain ⟨h1, h2, h3, h4⟩ := dropLoop_fields st.grid GRID_HEIGHT st.current_piece
  have hstop : collides st.grid (dropLoop st.grid GRID_HEIGHT st.current_piece) 0 1 = true := by
    apply dropLoop_reaches_collision st.grid GRID_HEIGHT st.current_piece hocc
    show (20 : Int) ≤ st.current_piece.y + (20 : Int) + 1
    omega
  refine ⟨h3, h1, h4, hstop, ?_, ?_, ?_⟩
  · intro k hk1 hk2
    exact dropLoop_intermediate st.grid GRID_HEIGHT st.current_piece k hk1 hk2
  · intro m
    exact dropLoop_stable st.grid GRID_HEIGHT st.current_piece hstop m
  · intro shape color shape2 color2
    rfl

/-- Witness for C7: an I piece hard-dropping through the empty board. -/
theorem hard_drop_resting_row_w :
    collides (initGame [[1, 1, 1, 1]] 1).grid
        (dropLoop (initGame [[1, 1, 1, 1]] 1).grid GRID_HEIGHT
          (initGame [[1, 1, 1, 1]] 1).current_piece) 0 1 = true :=
  (hard_drop_resting_row (initGame [[1, 1, 1, 1]] 1) (by decide) (by decide)).2.2.2.1

/-- Claim C10: for every board and every piece with at least one occupied
cell and non-negative row (every piece the game creates), the hard-drop
descent loop reaches its guard within `GRID_HEIGHT` steps — the collision
check returns true once an occupied cell's row reaches `GRID_HEIGHT` — and
extra fuel beyond that changes nothing; for a shape with no occupied cells
the guard never fires and the loop consumes any amount of fuel, i.e. the
unbounded source loop would not terminate. -/
theorem drop_loop_termination (g : List (List Nat)) (p : Tetromino) :
    (hasBlock p.shape = true → 0 ≤ p.y →
       collides g (dropLoop g GRID_HEIGHT p) 0 1 = true ∧
         ∀ m : Nat, dropLoop g (GRID_HEIGHT + m) p = dropLoop g GRID_HEIGHT p) ∧
      (hasBlock p.shape = false →
       ∀ fuel : Nat, dropLoop g fuel p = { p with y := p.y + (fuel : Int) }) := by
  constructor
  · intro hocc hy
    have hstop : collides g (dropLoop g GRID_HEIGHT p) 0 1 = true := by
      apply dropLoop_reaches_collision g GRID_HEIGHT p hocc
      show (20 : Int) ≤ p.y + (20 : Int) + 1
      omega
    exact ⟨hstop, fun m => dropLoop_stable g GRID_HEIGHT p hstop m⟩
  · intro hocc fuel
    exact dropLoop_empty_shape g fuel p hocc

/-- Witness for C10: a one-block piece terminates on the empty board; a
blockless piece keeps descending for any fuel. -/
theorem drop_loop_termination_w :
    collides (List.replicate 20 emptyRow)
        (dropLoop (List.replicate 20 emptyRow) GRID_HEIGHT ⟨[[1]], 1, 4, 0⟩) 0 1 = true ∧
      dropLoop (List.replicate 20 emptyRow) 5 ⟨[[0]], 1, 4, 0⟩ =
        { (⟨[[0]], 1, 4, 0⟩ : Tetromino) with
            y := (⟨[[0]], 1, 4, 0⟩ : Tetromino).y + ((5 : Nat) : Int) } :=
  ⟨((drop_loop_termination (List.replicate 20 emptyRow) ⟨[[1]], 1, 4, 0⟩).1
      (by decide) (by decide)).1,
   (drop_loop_termination (List.replicate 20 emptyRow) ⟨[[0]], 1, 4, 0⟩).2 (by decide) 5⟩

/-- The top two rows of the board are fully occupied (well-formed width and
every cell non-empty). -/
def topTwoRowsFull (g : List (List Nat)) : Prop :=
  (g.getD 0 []).length = GRID_WIDTH ∧ (g.getD 1 []).length = GRID_WIDTH ∧
    (∀ c ∈ g.getD 0 [], c ≠ 0) ∧ (∀ c ∈ g.getD 1 [], c ≠ 0)

instance (g : List (List Nat)) : Decidable (topTwoRowsFull g) := by
  unfold topTwoRowsFull; infer_instance

lemma full_row_cell {row : List Nat} (hlen : row.length = GRID_WIDTH)
    (hall : ∀ c ∈ row, c ≠ 0) (k : Nat) (hk : k < GRID_WIDTH) :
    row.getD k 0 ≠ 0 := by
  have hklen : k < row.length := by rw [hlen]; exact hk
  rw [List.getD_eq_getElem row 0 hklen]
  exact hall _ (List.getElem_mem hklen)

/-- A piece at the spawn coordinate `(4, 0)` with an occupied cell `(0, j)`,
`j < 6`, collides with a board whose top row is full. -/
lemma collides_spawn_top (g : List (List Nat)) (shape : List (List Nat)) (color : Nat)
    (j : Nat) (hj : j < 6) (hocc : cellAt shape 0 j ≠ 0) (hfull : topTwoRowsFull g) :
    collides g ⟨shape, color, 4, 0⟩ 0 0 = true := by
  refine (collides_iff g ⟨shape, color, 4, 0⟩ 0 0).mpr
    ⟨0, j, hocc, Or.inr (Or.inr (Or.inr ⟨?_, ?_⟩))⟩
  · show (0 : Int) ≤ 0 + ((0 : Nat) : Int) + 0
    norm_num
  · show gridCell g (0 + ((0 : Nat) : Int) + 0) (4 + (j : Int) + 0) ≠ 0
    have hr : ((0 : Int) + ((0 : Nat) : Int) + 0).toNat = 0 := by norm_num
    have hcidx : ((4 : Int) + (j : Int) + 0).toNat = 4 + j := by omega
    unfold gridCell
    rw [hr, hcidx]
    exact full_row_cell hfull.1 hfull.2.2.1 (4 + j) (by show 4 + j < 10; omega)

/-- Claim C8: when the top two rows of the board are fully occupied, a piece
freshly spawned at the fixed spawn coordinate (column 4, row 0) collides at
offset `(0, 0)` for every canonical shape, so `new_piece` enters the
game-over path and the session is fully reset: all-empty board, score 0,
level 1, fall interval 1000 ms. -/
theorem spawn_collision_game_over (st : Game) (shape : List (List Nat)) (color : Nat)
    (shape2 : List (List Nat)) (color2 : Nat)
    (hshape : shape ∈ SHAPES) (hfull : topTwoRowsFull st.grid) :
    collides st.grid ⟨shape, color, 4, 0⟩ 0 0 = true ∧
      Game.new_piece st shape color shape2 color2 = initGame shape2 color2 ∧
      (Game.new_piece st shape color shape2 color2).grid =
        List.replicate GRID_HEIGHT emptyRow ∧
      (Game.new_piece st shape color shape2 color2).score = 0 ∧
      (Game.new_piece st shape color shape2 color2).level = 1 ∧
      (Game.new_piece st shape color shape2 color2).fall_speed = 1000 := by
  have hcoll : collides st.grid ⟨shape, color, 4, 0⟩ 0 0 = true := by
    simp only [SHAPES, List.mem_cons, List.not_mem_nil, or_false] at hshape
    rcases hshape with h | h | h | h | h | h | h
    · exact collides_spawn_top st.grid shape color 0 (by omega) (by rw [h]; decide) hfull
    · exact collides_spawn_top st.grid shape color 0 (by omega) (by rw [h]; decide) hfull
    · exact collides_spawn_top st.grid shape color 0 (by omega) (by rw [h]; decide) hfull
    · exact collides_spawn_top st.grid shape color 0 (by omega) (by rw [h]; decide) hfull
    · exact collides_spawn_top st.grid shape color 0 (by omega) (by rw [h]; decide) hfull
    · exact collides_spawn_top st.grid shape color 0 (by omega) (by rw [h]; decide) hfull
    · exact collides_spawn_top st.grid shape color 1 (by omega) (by rw [h]; decide) hfull
  have hnp : Game.new_piece st shape color shape2 color2 = initGame shape2 color2 := by
    unfold Game.new_piece
    rw [if_pos (by rw [check_collision_eq_collides]; exact hcoll)]
  exact ⟨hcoll, hnp, by rw [hnp]; rfl, by rw [hnp]; rfl, by rw [hnp]; rfl, by rw [hnp]; rfl⟩

/-- Witness for C8: the O piece spawning against a board whose top two rows
are full of color 5. -/
theorem spawn_collision_game_over_w :
    collides (Game.grid ⟨List.replicate 2 (List.replicate 10 5) ++ List.replicate 18 emptyRow,
          ⟨[[1]], 1, 4, 0⟩, 0, 1, 1000⟩)
        ⟨[[1, 1], [1, 1]], 3, 4, 0⟩ 0 0 = true ∧
      Game.new_piece ⟨List.replicate 2 (List.replicate 10 5) ++ List.replicate 18 emptyRow,
          ⟨[[1]], 1, 4, 0⟩, 0, 1, 1000⟩ [[1, 1], [1, 1]] 3 [[1, 1, 1, 1]] 2 =
        initGame [[1, 1, 1, 1]] 2 ∧
      (Game.new_piece ⟨List.replicate 2 (List.replicate 10 5) ++ List.replicate 18 emptyRow,
          ⟨[[1]], 1, 4, 0⟩, 0, 1, 1000⟩ [[1, 1], [1, 1]] 3 [[1, 1, 1, 1]] 2).grid =
        List.replicate GRID_HEIGHT emptyRow ∧
      (Game.new_piece ⟨List.replicate 2 (List.replicate 10 5) ++ List.replicate 18 emptyRow,
          ⟨[[1]], 1, 4, 0⟩, 0, 1, 1000⟩ [[1, 1], [1, 1]] 3 [[1, 1, 1, 1]] 2).score = 0 ∧
      (Game.new_piece ⟨List.replicate 2 (List.replicate 10 5) ++ List.replicate 18 emptyRow,
          ⟨[[1]], 1, 4, 0⟩, 0, 1, 1000⟩ [[1, 1], [1, 1]] 3 [[1, 1, 1, 1]] 2).level = 1 ∧
      (Game.new_piece ⟨List.replicate 2 (List.replicate 10 5) ++ List.replicate 18 emptyRow,
          ⟨[[1]], 1, 4, 0⟩, 0, 1, 1000⟩ [[1, 1], [1, 1]] 3 [[1, 1, 1, 1]] 2).fall_speed = 1000 :=
  spawn_collision_game_over
    ⟨List.replicate 2 (List.replicate 10 5) ++ List.replicate 18 emptyRow,
      ⟨[[1]], 1, 4, 0⟩, 0, 1, 1000⟩
    [[1, 1], [1, 1]] 3 [[1, 1, 1, 1]] 2 (by decide) (by decide)

/-- A well-formed row: `GRID_WIDTH` cells, each empty (0) or a palette index
(1..7), i.e. `≤ 7`. -/
def rowOK (r : List Nat) : Prop := r.length = GRID_WIDTH ∧ ∀ c ∈ r, c ≤ 7

/-- A well-formed grid: exactly `GRID_HEIGHT` well-formed rows. -/
def gridOK (g : List (List Nat)) : Prop := g.length = GRID_HEIGHT ∧ ∀ r ∈ g, rowOK r

/-- The session-state invariant of the spec: well-formed grid, non-negative
score, level at least 1, fall interval at least 100 ms. -/
def SessionInv (st : Game) : Prop :=
  gridOK st.grid ∧ 0 ≤ st.score ∧ 1 ≤ st.level ∧ 100 ≤ st.fall_speed

instance (r : List Nat) : Decidable (rowOK r) := by unfold rowOK; infer_instance

instance (g : List (List Nat)) : Decidable (gridOK g) := by unfold gridOK; infer_instance

instance (st : Game) : Decidable (SessionInv st) := by unfold SessionInv; infer_instance

lemma rowOK_set {r : List Nat} (h : rowOK r) (c v : Nat) (hv : v ≤ 7) :
    rowOK (r.set c v) := by
  refine ⟨by rw [List.length_set]; exact h.1, ?_⟩
  intro x hx
  rcases List.mem_or_eq_of_mem_set hx with hmem | hex
  · exact h.2 x hmem
  · rw [hex]; exact hv

lemma gridOK_setCell {g : List (List Nat)} (hg : gridOK g) (r c : Int) {v : Nat}
    (hv : v ≤ 7) : gridOK (setCell g r c v) := by
  unfold setCell
  by_cases hr : r.toNat < g.length
  · refine ⟨by rw [List.length_set]; exact hg.1, ?_⟩
    intro x hx
    rcases List.mem_or_eq_of_mem_set hx with hmem | hex
    · exact hg.2 x hmem
    · rw [hex, List.getD_eq_getElem g [] hr]
      exact rowOK_set (hg.2 _ (List.getElem_mem hr)) c.toNat v hv
  · rw [List.set_eq_of_length_le (by omega)]
    exact hg

lemma foldl_preserve {α β : Type} (P : α → Prop) (f : α → β → α)
    (hf : ∀ a b, P a → P (f a b)) : ∀ (l : List β) (a : α), P a → P (l.foldl f a) := by
  intro l
  induction l with
  | nil => intro a h; exact h
  | cons x xs ih => intro a h; exact ih (f a x) (hf a x h)

/-- Locking a piece writes only its color into cells, so a well-formed grid
stays well-formed whenever the color is a palette index. -/
lemma gridOK_mergeGrid {g : List (List Nat)} (p : Tetromino) (hg : gridOK g)
    (hc : p.color ≤ 7) : gridOK (mergeGrid g p) := by
  unfold mergeGrid
  refine foldl_preserve gridOK _ ?_ _ g hg
  intro acc yrow hacc
  refine foldl_preserve gridOK _ ?_ _ acc hacc
  intro acc2 xcell hacc2
  by_cases hcell : xcell.2 ≠ 0
  · rw [if_pos hcell]
    exact gridOK_setCell hacc2 _ _ hc
  · rw [if_neg hcell]
    exact hacc2

lemma countP_add_countP_not (p : List Nat → Bool) (l : List (List Nat)) :
    l.countP p + l.countP (fun a => ! p a) = l.length := by
  induction l with
  | nil => simp
  | cons a t ih =>
    by_cases h : p a = true
    · rw [List.countP_cons_of_pos _ _ h, List.countP_cons_of_neg _ _ (by simp [h])]
      simp only [List.length_cons]
      omega
    · rw [List.countP_cons_of_neg _ _ h, List.countP_cons_of_pos _ _ (by simp [h])]
      simp only [List.length_cons]
      omega

lemma rowOK_emptyRow : rowOK emptyRow := by decide

/-- The clearing pass preserves grid well-formedness. -/
lemma gridOK_clearLinesGrid {g : List (List Nat)} (hg : gridOK g) :
    gridOK (clearLinesGrid g).1 := by
  rw [clearLinesGrid_spec]
  refine ⟨?_, ?_⟩
  · simp only [List.length_append, List.length_replicate,
      ← List.countP_eq_length_filter]
    rw [countP_add_countP_not isFullRow g]
    exact hg.1
  · intro r hr
    rcases List.mem_append.mp hr with hmem | hmem
    · rw [List.eq_of_mem_replicate hmem]
      exact rowOK_emptyRow
    · exact hg.2 r (List.mem_of_mem_filter hmem)

/-- `clear_lines` preserves the invariant and never decreases the score. -/
lemma Inv_clear_lines (st : Game) (hInv : SessionInv st) :
    SessionInv (Game.clear_lines st) ∧ st.score ≤ (Game.clear_lines st).score := by
  have hg' : gridOK (clearLinesGrid st.grid).1 := gridOK_clearLinesGrid hInv.1
  by_cases hn : (clearLinesGrid st.grid).2 = 0
  · have heq : Game.clear_lines st = { st with grid := (clearLinesGrid st.grid).1 } := by
      simp [Game.clear_lines, hn]
    rw [heq]
    exact ⟨⟨hg', hInv.2.1, hInv.2.2.1, hInv.2.2.2⟩, le_refl _⟩
  · have heq : Game.clear_lines st =
        { st with
          grid := (clearLinesGrid st.grid).1
          score := st.score + 100 * ((clearLinesGrid st.grid).2 : Int) * st.level
          level := 1 + (st.score + 100 * ((clearLinesGrid st.grid).2 : Int) * st.level) / 1000
          fall_speed := max 100 (1000 -
            (1 + (st.score + 100 * ((clearLinesGrid st.grid).2 : Int) * st.level) / 1000) * 100) } := by
      simp [Game.clear_lines, hn]
    have hmul : 0 ≤ 100 * ((clearLinesGrid st.grid).2 : Int) * st.level :=
      mul_nonneg (mul_nonneg (by norm_num) (Int.natCast_nonneg _))
        (by have := hInv.2.2.1; omega)
    rw [heq]
    refine ⟨⟨hg', ?_, ?_, le_max_left _ _⟩, ?_⟩
    · show 0 ≤ st.score + 100 * ((clearLinesGrid st.grid).2 : Int) * st.level
      have := hInv.2.1
      omega
    · show 1 ≤ 1 + (st.score + 100 * ((clearLinesGrid st.grid).2 : Int) * st.level) / 1000
      have hdiv : 0 ≤ (st.score + 100 * ((clearLinesGrid st.grid).2 : Int) * st.level) / 1000 :=
        Int.ediv_nonneg (by have := hInv.2.1; omega) (by norm_num)
      omega
    · show st.score ≤ st.score + 100 * ((clearLinesGrid st.grid).2 : Int) * st.level
      omega

lemma SessionInv_initGame (shape : List (List Nat)) (color : Nat) :
    SessionInv (initGame shape color) := by
  refine ⟨⟨?_, ?_⟩, ?_, ?_, ?_⟩
  · show (List.replicate GRID_HEIGHT emptyRow).length = GRID_HEIGHT
    simp
  · intro r hr
    have hr' : r ∈ List.replicate GRID_HEIGHT emptyRow := hr
    rw [List.eq_of_mem_replicate hr']
    exact rowOK_emptyRow
  · show (0 : Int) ≤ 0
    norm_num
  · show (1 : Int) ≤ 1
    norm_num
  · show (100 : Int) ≤ 1000
    norm_num

/-- Spawning preserves the invariant; the score is unchanged, except that the
game-over reset starts a fresh session at score 0. -/
lemma SessionInv_new_piece (st : Game) (shape : List (List Nat)) (color : Nat)
    (shape2 : List (List Nat)) (color2 : Nat) (hInv : SessionInv st) :
    SessionInv (Game.new_piece st shape color shape2 color2) ∧
      ((Game.new_piece st shape color shape2 color2).score = st.score ∨
        (Game.new_piece st shape color shape2 color2).score = 0) := by
  unfold Game.new_piece
  dsimp only
  split
  · exact ⟨SessionInv_initGame shape2 color2, Or.inr rfl⟩
  · exact ⟨hInv, Or.inl rfl⟩

/-- Locking, clearing and respawning preserve the invariant; the score never
decreases except across the game-over reset to 0. -/
lemma SessionInv_merge_piece (st : Game) (shape : List (List Nat)) (color : Nat)
    (shape2 : List (List Nat)) (color2 : Nat) (hInv : SessionInv st)
    (hc : st.current_piece.color ≤ 7) :
    SessionInv (Game.merge_piece st shape color shape2 color2) ∧
      (st.score ≤ (Game.merge_piece st shape color shape2 color2).score ∨
        (Game.merge_piece st shape color shape2 color2).score = 0) := by
  have hInv1 : SessionInv { st with grid := mergeGrid st.grid st.current_piece } :=
    ⟨gridOK_mergeGrid st.current_piece hInv.1 hc, hInv.2.1, hInv.2.2.1, hInv.2.2.2⟩
  obtain ⟨hInv2, hsc2⟩ :=
    Inv_clear_lines { st with grid := mergeGrid st.grid st.current_piece } hInv1
  obtain ⟨hInv3, hsc3⟩ :=
    SessionInv_new_piece
      (Game.clear_lines { st with grid := mergeGrid st.grid st.current_piece })
      shape color shape2 color2 hInv2
  refine ⟨hInv3, ?_⟩
  rcases hsc3 with h | h
  · left
    rw [Game.merge_piece]
    rw [h]
    exact hsc2
  · right
    exact h

/-- The input intents and the auto-fall action of the source event loop, with
the random draws of any spawn injected as parameters. -/
inductive Op where
  | left : Op
  | right : Op
  | down : Op
  | rot : Op
  | drop (shape : List (List Nat)) (color : Nat)
      (shape2 : List (List Nat)) (color2 : Nat) : Op
  | tick (shape : List (List Nat)) (color : Nat)
      (shape2 : List (List Nat)) (color2 : Nat) : Op

/-- One step of the session: dispatch an operation to its handler. -/
def step : Op → Game → Game
  | Op.left, st => moveLeft st
  | Op.right, st => moveRight st
  | Op.down, st => softDrop st
  | Op.rot, st => rotateIntent st
  | Op.drop shape color shape2 color2, st => hardDrop st shape color shape2 color2
  | Op.tick shape color shape2 color2, st => autoFall st shape color shape2 color2

/-- Claim C9: every operation of the session preserves the state invariant —
the grid keeps exactly `GRID_HEIGHT` rows of `GRID_WIDTH` cells each holding
0 or a palette index `1..7`, the score stays a non-negative integer, the
level stays `≥ 1` and the fall interval stays `≥ 100` — and within a session
the score never decreases: after any operation the score is at least the old
score unless the operation performed the game-over reset, which starts a new
session at score 0. -/
theorem session_invariant_preserved (op : Op) (st : Game) (hInv : SessionInv st)
    (hcol : st.current_piece.color ≤ 7) :
    SessionInv (step op st) ∧
      (st.score ≤ (step op st).score ∨ (step op st).score = 0) := by
  cases op with
  | left =>
    show SessionInv (moveLeft st) ∧
      (st.score ≤ (moveLeft st).score ∨ (moveLeft st).score = 0)
    unfold moveLeft
    split <;> exact ⟨hInv, Or.inl (le_refl _)⟩
  | right =>
    show SessionInv (moveRight st) ∧
      (st.score ≤ (moveRight st).score ∨ (moveRight st).score = 0)
    unfold moveRight
    split <;> exact ⟨hInv, Or.inl (le_refl _)⟩
  | down =>
    show SessionInv (softDrop st) ∧
      (st.score ≤ (softDrop st).score ∨ (softDrop st).score = 0)
    unfold softDrop
    split <;> exact ⟨hInv, Or.inl (le_refl _)⟩
  | rot =>
    show SessionInv (rotateIntent st) ∧
      (st.score ≤ (rotateIntent st).score ∨ (rotateIntent st).score = 0)
    unfold rotateIntent
    dsimp only
    split <;> exact ⟨hInv, Or.inl (le_refl _)⟩
  | drop shape color shape2 color2 =>
    show SessionInv (hardDrop st shape color shape2 color2) ∧
      (st.score ≤ (hardDrop st shape color shape2 color2).score ∨
        (hardDrop st shape color shape2 color2).score = 0)
    have hc' : ({ st with
        current_piece := dropLoop st.grid GRID_HEIGHT st.current_piece } : Game).current_piece.color ≤ 7 := by
      show (dropLoop st.grid GRID_HEIGHT st.current_piece).color ≤ 7
      rw [(dropLoop_fields st.grid GRID_HEIGHT st.current_piece).2.1]
      exact hcol
    exact SessionInv_merge_piece
      { st with current_piece := dropLoop st.grid GRID_HEIGHT st.current_piece }
      shape color shape2 color2 hInv hc'
  | tick shape color shape2 color2 =>
    show SessionInv (autoFall st shape color shape2 color2) ∧
      (st.score ≤ (autoFall st shape color shape2 color2).score ∨
        (autoFall st shape color shape2 color2).score = 0)
    unfold autoFall
    split
    · exact SessionInv_merge_piece st shape color shape2 color2 hInv hcol
    · exact ⟨hInv, Or.inl (le_refl _)⟩

/-- Witness for C9: a left move from the freshly initialized session. -/
theorem session_invariant_preserved_w :
    SessionInv (step Op.left (initGame [[1, 1, 1, 1]] 1)) ∧
      ((initGame [[1, 1, 1, 1]] 1).score ≤ (step Op.left (initGame [[1, 1, 1, 1]] 1)).score ∨
        (step Op.left (initGame [[1, 1, 1, 1]] 1)).score = 0) :=
  session_invariant_preserved Op.left (initGame [[1, 1, 1, 1]] 1) (by decide) (by decide)
